import Mathlib

/-!
Verification of the review-to-recommendation aggregation pipeline
(`analyze_reviews_with_agent` in `review_analyzer.py`).

The development shallowly embeds the pipeline: the tolerant response parser
(`re.search` of a brace span followed by `json.loads`), the catalog matcher,
the per-batch aggregation into a running map, the scorer, the ranking and
emission step, and the persistence upserts.  Machine floats are modelled by
`ℚ`, Python dicts by insertion-ordered association lists.
-/

/- ### Character and string helpers -/

/-- The double-quote character. -/
def quoteC : Char := Char.ofNat 34

/-- The backslash character. -/
def backslashC : Char := Char.ofNat 92

/-- The opening-brace character. -/
def lbraceC : Char := Char.ofNat 123

/-- The closing-brace character. -/
def rbraceC : Char := Char.ofNat 125

/-- Helper for `pyWords`: accumulate the current token (reversed) while
scanning, emitting a token at each whitespace boundary. -/
def pyWordsAux (cur : List Char) : List Char → List (List Char)
  | [] => if cur = [] then [] else [cur.reverse]
  | c :: t =>
    if c.isWhitespace then
      (if cur = [] then [] else [cur.reverse]) ++ pyWordsAux [] t
    else pyWordsAux (c :: cur) t

/-- Python `str.split()` with no argument: split on runs of whitespace,
discarding empty tokens. -/
def pyWords (s : String) : List String :=
  (pyWordsAux [] s.data).map String.mk

/-- Python `str.lower()` (character-wise lowering). -/
def lowerStr (s : String) : String := String.mk (s.data.map Char.toLower)

/-- Python string slicing `s[:n]`: the first `n` characters. -/
def takeStr (s : String) (n : ℕ) : String := String.mk (s.data.take n)

/-- Python `" ".join(parts)`. -/
def joinSpace : List String → String
  | [] => ""
  | [x] => x
  | x :: y :: t => x ++ " " ++ joinSpace (y :: t)

/-- Plain concatenation of a list of strings, with no separator. -/
def concatAll : List String → String
  | [] => ""
  | x :: t => x ++ concatAll t

/-- The test `subListOf n h` holds when `n` occurs as a contiguous sublist of `h`. -/
def subListOf (n : List Char) : List Char → Bool
  | [] => n.isEmpty
  | c :: t => n.isPrefixOf (c :: t) || subListOf n t

/-- Python's `needle in haystack` on strings: contiguous substring test. -/
def strIn (needle haystack : String) : Bool :=
  subListOf needle.data haystack.data

/- ### A JSON value model (for `json.loads`) -/

/-- JSON values, as produced by Python's `json.loads`.  Numbers are modelled
by `ℚ` (exact stand-in for floats). -/
inductive Json where
  | null : Json
  | bool (b : Bool) : Json
  | num (q : ℚ) : Json
  | str (s : String) : Json
  | arr (elements : List Json) : Json
  | obj (fields : List (String × Json)) : Json

/-- Dictionary lookup.  Python's `json.loads` keeps the *last* binding of a
duplicated key, so the fold keeps the last match. -/
def jGet (fields : List (String × Json)) (key : String) : Option Json :=
  fields.foldl (fun acc p => if p.1 = key then some p.2 else acc) none

/-- Skip JSON whitespace (space, tab, newline, carriage return). -/
def skipWs : List Char → List Char
  | [] => []
  | c :: t =>
    if c = ' ' ∨ c = '\t' ∨ c = '\n' ∨ c = '\r' then skipWs t else c :: t

/-- Numeric value of a decimal digit character. -/
def digitVal (c : Char) : ℕ := c.toNat - 48

/-- Decimal value of a digit string. -/
def digitsToNat (ds : List Char) : ℕ :=
  ds.foldl (fun acc c => acc * 10 + digitVal c) 0

/-- Split off a leading run of decimal digits. -/
def pDigits (cs : List Char) : List Char × List Char :=
  (cs.takeWhile Char.isDigit, cs.dropWhile Char.isDigit)

/-- Strict JSON integer part: `0` or a nonzero digit followed by digits. -/
def pIntPart (cs : List Char) : Option (ℕ × List Char) :=
  match pDigits cs with
  | ([], _) => none
  | (d :: ds, rest) =>
    if d = '0' ∧ ds ≠ [] then none else some (digitsToNat (d :: ds), rest)

/-- Optional JSON fraction part; returns its value, its digit count and the
rest.  A dot not followed by a digit is an error. -/
def pFracPart (cs : List Char) : Option (ℕ × ℕ × List Char) :=
  match cs with
  | [] => some (0, 0, [])
  | c :: t =>
    if c = '.' then
      match pDigits t with
      | ([], _) => none
      | (ds, rest) => some (digitsToNat ds, ds.length, rest)
    else some (0, 0, cs)

/-- Optional JSON exponent part. -/
def pExpPart (cs : List Char) : Option (ℤ × List Char) :=
  match cs with
  | [] => some (0, [])
  | c :: t =>
    if c = 'e' ∨ c = 'E' then
      let sgnRest : ℤ × List Char :=
        match t with
        | [] => (1, [])
        | s :: t2 => if s = '+' then (1, t2) else if s = '-' then (-1, t2) else (1, t)
      match pDigits sgnRest.2 with
      | ([], _) => none
      | (ds, rest) => some (sgnRest.1 * (digitsToNat ds : ℤ), rest)
    else some (0, cs)

/-- Parse a JSON number into a rational. -/
def pNumber (cs : List Char) : Option (ℚ × List Char) :=
  let sgnRest : ℚ × List Char :=
    match cs with
    | [] => (1, [])
    | c :: t => if c = '-' then (-1, t) else (1, cs)
  match pIntPart sgnRest.2 with
  | none => none
  | some (ip, cs2) =>
    match pFracPart cs2 with
    | none => none
    | some (fv, fd, cs3) =>
      match pExpPart cs3 with
      | none => none
      | some (ex, cs4) =>
        some (sgnRest.1 * ((ip : ℚ) + (fv : ℚ) / (10 : ℚ) ^ fd) * (10 : ℚ) ^ ex, cs4)

/-- Hexadecimal value of a character, if any. -/
def hexVal (c : Char) : Option ℕ :=
  if c.isDigit then some (c.toNat - 48)
  else if 'a' ≤ c ∧ c ≤ 'f' then some (c.toNat - 87)
  else if 'A' ≤ c ∧ c ≤ 'F' then some (c.toNat - 55)
  else none

/-- Value of a single-character JSON escape. -/
def escChar (e : Char) : Option Char :=
  if e = quoteC ∨ e = backslashC ∨ e = '/' then some e
  else if e = 'b' then some (Char.ofNat 8)
  else if e = 'f' then some (Char.ofNat 12)
  else if e = 'n' then some (Char.ofNat 10)
  else if e = 'r' then some (Char.ofNat 13)
  else if e = 't' then some (Char.ofNat 9)
  else none

/-- Parse the body of a JSON string literal (after the opening quote);
returns the content and the remainder past the closing quote.  Unescaped
control characters are rejected, as in Python's strict mode. -/
def pStrChars : List Char → Option (List Char × List Char)
  | [] => none
  | c :: t =>
    if c = quoteC then some ([], t)
    else if c = backslashC then
      match t with
      | 'u' :: a :: b :: c2 :: d :: t2 =>
        match hexVal a, hexVal b, hexVal c2, hexVal d with
        | some ha, some hb, some hc, some hd =>
          match pStrChars t2 with
          | none => none
          | some (s, r) =>
            some (Char.ofNat (((ha * 16 + hb) * 16 + hc) * 16 + hd) :: s, r)
        | _, _, _, _ => none
      | e :: t2 =>
        match escChar e with
        | none => none
        | some ec =>
          match pStrChars t2 with
          | none => none
          | some (s, r) => some (ec :: s, r)
      | [] => none
    else if c.toNat < 32 then none
    else
      match pStrChars t with
      | none => none
      | some (s, r) => some (c :: s, r)

mutual

/-- Parse one JSON value (fuel-indexed). -/
def pValue : ℕ → List Char → Option (Json × List Char)
  | 0, _ => none
  | fu + 1, cs =>
    match skipWs cs with
    | [] => none
    | c :: t =>
      if c = lbraceC then
        match skipWs t with
        | [] => none
        | d :: t2 =>
          if d = rbraceC then some (Json.obj [], t2)
          else pMembers fu (d :: t2) []
      else if c = '[' then
        match skipWs t with
        | [] => none
        | d :: t2 =>
          if d = ']' then some (Json.arr [], t2)
          else pItems fu (d :: t2) []
      else if c = quoteC then
        match pStrChars t with
        | none => none
        | some (s, r) => some (Json.str (String.mk s), r)
      else if ("true".data).isPrefixOf (c :: t) then some (Json.bool true, (c :: t).drop 4)
      else if ("false".data).isPrefixOf (c :: t) then some (Json.bool false, (c :: t).drop 5)
      else if ("null".data).isPrefixOf (c :: t) then some (Json.null, (c :: t).drop 4)
      else (pNumber (c :: t)).map (fun p => (Json.num p.1, p.2))

/-- Parse the members of a JSON object, positioned at the first member. -/
def pMembers : ℕ → List Char → List (String × Json) → Option (Json × List Char)
  | 0, _, _ => none
  | fu + 1, cs, acc =>
    match skipWs cs with
    | [] => none
    | c :: t =>
      if c = quoteC then
        match pStrChars t with
        | none => none
        | some (k, r) =>
          match skipWs r with
          | [] => none
          | d :: r2 =>
            if d = ':' then
              match pValue fu r2 with
              | none => none
              | some (v, r3) =>
                match skipWs r3 with
                | [] => none
                | e :: r4 =>
                  if e = ',' then pMembers fu r4 (acc ++ [(String.mk k, v)])
                  else if e = rbraceC then some (Json.obj (acc ++ [(String.mk k, v)]), r4)
                  else none
            else none
      else none

/-- Parse the items of a JSON array, positioned at the first item. -/
def pItems : ℕ → List Char → List Json → Option (Json × List Char)
  | 0, _, _ => none
  | fu + 1, cs, acc =>
    match pValue fu cs with
    | none => none
    | some (v, r) =>
      match skipWs r with
      | [] => none
      | e :: r2 =>
        if e = ',' then pItems fu r2 (acc ++ [v])
        else if e = ']' then some (Json.arr (acc ++ [v]), r2)
        else none

end

/-- Model of `json.loads`: parse a complete JSON document, rejecting trailing input. -/
def jsonParse (s : String) : Option Json :=
  match pValue (s.length + 1) s.data with
  | none => none
  | some (v, rest) => if skipWs rest = [] then some v else none

/- ### Span extraction -/

/-- The span matched by `re.search(r'\{[\s\S]*\}', text)`: from the first
opening brace to the last closing brace (the `*` is greedy), provided the
last closing brace lies after the first opening brace. -/
def extractSpan (s : String) : Option String :=
  let cs := s.data
  match cs.findIdx? (fun c => c = lbraceC) with
  | none => none
  | some i =>
    match cs.reverse.findIdx? (fun c => c = rbraceC) with
    | none => none
    | some jr =>
      let j := cs.length - 1 - jr
      if i < j then some (String.mk ((cs.drop i).take (j - i + 1))) else none

/-- Brace-balance scanner used by `firstBalancedSpan`: accumulate characters,
tracking the nesting depth, until the brace that closes the opening one. -/
def balTake (acc : List Char) (depth : ℕ) : List Char → Option (List Char)
  | [] => none
  | c :: t =>
    if c = lbraceC then balTake (acc ++ [c]) (depth + 1) t
    else if c = rbraceC then
      if depth ≤ 1 then some (acc ++ [c]) else balTake (acc ++ [c]) (depth - 1) t
    else balTake (acc ++ [c]) depth t

/-- Modelled from the spec: "locate the first balanced top-level
structured-object span embedded anywhere in the text".  Starts at the first
opening brace and returns the span up to the brace that balances it (a plain
brace-balance scan).  This is the contract the spec states for the Response
Parser; it exists to be compared against `extractSpan`, which is what the
code computes. -/
def firstBalancedSpan (s : String) : Option String :=
  match s.data.findIdx? (fun c => c = lbraceC) with
  | none => none
  | some i => (balTake [] 0 (s.data.drop i)).map String.mk

/- ### Data model -/

/-- A catalog entry as fetched by the menu query: `(m.id, m.name AS item_name,
c.name AS item_category, m.price AS item_price)`. -/
structure MenuItem where
  id : ℕ
  name : String
  category : String
  price : ℚ
deriving DecidableEq

/-- A decoded `DishObservation`, one entry of the `dishes` list of a parsed
batch.  Mention counts and the sentiment score are JSON numbers, hence `ℚ`. -/
structure Dish where
  name : String
  positive_mentions : ℚ
  negative_mentions : ℚ
  neutral_mentions : ℚ
  sentiment_score : ℚ
  top_keywords : List String
  taste_descriptors : List String
  summary : String
deriving DecidableEq

/-- Reading `dish.get(key, 0)` for a numeric field: missing means `0`; a present
non-numeric value makes the later `+=` raise (modelled as `none`). -/
def jNumField (fs : List (String × Json)) (key : String) : Option ℚ :=
  match jGet fs key with
  | none => some 0
  | some (Json.num q) => some q
  | some _ => none

/-- Reading `dish.get(key)` for a keyword list: the string elements of a present
array, otherwise the empty list (a missing or falsy field is not extended). -/
def jStrListField (fs : List (String × Json)) (key : String) : List String :=
  match jGet fs key with
  | some (Json.arr es) =>
    es.filterMap (fun e => match e with | Json.str s => some s | _ => none)
  | _ => []

/-- Reading `dish.get(key)` for a string field, `""` when missing. -/
def jStrField (fs : List (String × Json)) (key : String) : String :=
  match jGet fs key with
  | some (Json.str s) => s
  | _ => ""

/-- Reading `dish.get("name", "")`: missing gives `""`; a present non-string value
makes `.lower()` raise (modelled as `none`). -/
def jNameField (fs : List (String × Json)) : Option String :=
  match jGet fs "name" with
  | none => some ""
  | some (Json.str s) => some s
  | some _ => none

/-- Decode one element of the `dishes` list.  A non-object element (its
`.get` raises) or an ill-typed field yields `none`, which aborts the rest of
the batch in `processElems` — the exception is caught at batch level. -/
def mkDish : Json → Option Dish
  | Json.obj fs =>
    match jNameField fs, jNumField fs "positive_mentions", jNumField fs "negative_mentions",
          jNumField fs "neutral_mentions", jNumField fs "sentiment_score" with
    | some nm, some p, some n, some nu, some sc =>
      some { name := nm, positive_mentions := p, negative_mentions := n,
             neutral_mentions := nu, sentiment_score := sc,
             top_keywords := jStrListField fs "top_keywords",
             taste_descriptors := jStrListField fs "taste_descriptors",
             summary := jStrField fs "summary" }
    | _, _, _, _, _ => none
  | _ => none

/- ### Catalog matcher -/

/-- The test applied to one catalog entry inside the matching loop: a single
token must occur in the lowercased item name; with several tokens the first
and the last token must both occur. -/
def matchesWords (ws : List String) (item : MenuItem) : Bool :=
  match ws with
  | [] => false
  | [w] => strIn w (lowerStr item.name)
  | w :: v :: rest =>
    strIn w (lowerStr item.name) &&
      strIn ((v :: rest).getLast (List.cons_ne_nil v rest)) (lowerStr item.name)

/-- The matching loop: first qualifying entry in catalog order (`break` on
the first hit). -/
def matchDish (menu : List MenuItem) (ws : List String) : Option MenuItem :=
  menu.find? (matchesWords ws)

/- ### Aggregator -/

/-- One row of the running `aggregated_dishes` map.  During aggregation the
`sentiment_score` field holds the *running sum* of observation scores (the
code reuses the key and divides at scoring time). -/
structure AggDish where
  id : ℕ
  dish_name : String
  category : String
  price : ℚ
  sentiment_score : ℚ
  positive_mentions : ℚ
  negative_mentions : ℚ
  neutral_mentions : ℚ
  top_keywords : List String
  taste_descriptors : List String
  summary_parts : List String
  occurrence_count : ℕ
deriving DecidableEq

/-- The fresh row created when a catalog id is first seen: identity fields
from the matched entry, all running data zeroed. -/
def emptyAgg (item : MenuItem) : AggDish :=
  { id := item.id, dish_name := item.name, category := item.category, price := item.price,
    sentiment_score := 0, positive_mentions := 0, negative_mentions := 0,
    neutral_mentions := 0, top_keywords := [], taste_descriptors := [],
    summary_parts := [], occurrence_count := 0 }

/-- Merge one observation into a row: add the mention counts and the
sentiment score, bump `occurrence_count`, extend the keyword lists, append
the summary fragment when non-empty. -/
def addDish (a : AggDish) (d : Dish) : AggDish :=
  { a with
    positive_mentions := a.positive_mentions + d.positive_mentions,
    negative_mentions := a.negative_mentions + d.negative_mentions,
    neutral_mentions := a.neutral_mentions + d.neutral_mentions,
    sentiment_score := a.sentiment_score + d.sentiment_score,
    occurrence_count := a.occurrence_count + 1,
    top_keywords := a.top_keywords ++ d.top_keywords,
    taste_descriptors := a.taste_descriptors ++ d.taste_descriptors,
    summary_parts := a.summary_parts ++ (if d.summary = "" then [] else [d.summary]) }

/-- The `aggregated_dishes` dict: an insertion-ordered association list keyed
by catalog id (Python dicts preserve insertion order). -/
abbrev AggState := List (ℕ × AggDish)

/-- Dict lookup. -/
def lookupA : AggState → ℕ → Option AggDish
  | [], _ => none
  | p :: t, k => if p.1 = k then some p.2 else lookupA t k

/-- In-place value update at a present key (keeps dict order). -/
def updateA : AggState → ℕ → AggDish → AggState
  | [], _, _ => []
  | p :: t, k, v => if p.1 = k then (p.1, v) :: t else p :: updateA t k v

/-- The merge of one matched observation: create the row if absent (inserted
at the end, as dict insertion does), then add the observation into it. -/
def mergeObs (st : AggState) (item : MenuItem) (d : Dish) : AggState :=
  match lookupA st item.id with
  | none => st ++ [(item.id, addDish (emptyAgg item) d)]
  | some a => updateA st item.id (addDish a d)

/-- The fate of one element of the `dishes` list.  `none` models an
exception (a non-object element or an ill-typed field: its handling raises,
the `except` at batch level catches it, and the rest of the batch is
skipped).  `some none` is a silently dropped observation: an empty lowercased
name (`continue`), or no qualifying catalog entry.  A whitespace-only name
reaches the matching loop with no tokens: with a non-empty catalog
`name_words[0]` raises (exception); with an empty catalog the loop body
never runs and the observation is dropped.  `some (some (item, d))` merges
`d` into the row of `item`. -/
def dishAction (menu : List MenuItem) (e : Json) : Option (Option (MenuItem × Dish)) :=
  match mkDish e with
  | none => none
  | some d =>
    if lowerStr d.name = "" then some none
    else
      match pyWords (lowerStr d.name) with
      | [] => if menu = [] then some none else none
      | w :: ws =>
        match matchDish menu (w :: ws) with
        | none => some none
        | some item => some (some (item, d))

/-- Process the decoded `dishes` list of one batch, observation by
observation, stopping early (with the state built so far) when an element
raises. -/
def processElems (menu : List MenuItem) : List Json → AggState → AggState
  | [], st => st
  | e :: rest, st =>
    match dishAction menu e with
    | none => st
    | some none => processElems menu rest st
    | some (some (item, d)) => processElems menu rest (mergeObs st item d)

/-- The `dishes` list of a parsed response object
(`agent_analysis.get("dishes", [])`). -/
def dishesOf : Json → List Json
  | Json.obj fs =>
    match jGet fs "dishes" with
    | some (Json.arr es) => es
    | _ => []
  | _ => []

/-- The per-batch parse chain: brace-span search, `json.loads`, `dishes`
extraction.  `none` exactly when no span is found or decoding fails. -/
def parseBatch (t : String) : Option (List Json) :=
  match extractSpan t with
  | none => none
  | some sp =>
    match jsonParse sp with
    | none => none
    | some j => some (dishesOf j)

/-- Handling of one completed batch response: a failed parse contributes
nothing (`continue`), a successful one is merged observation by
observation. -/
def batchStep (menu : List MenuItem) (st : AggState) (t : String) : AggState :=
  match parseBatch t with
  | none => st
  | some es => processElems menu es st

/-- Aggregation over already-decoded batches in completion order (used to
state the merge-order claims at the `DishObservation` level). -/
def runAggJson (menu : List MenuItem) (batches : List (List Json)) : AggState :=
  batches.foldl (fun st es => processElems menu es st) []

/- ### Scorer -/

/-- A scored dish, as assembled into `all_valid_dishes`. -/
structure ScoredDish where
  id : ℕ
  dish_name : String
  category : String
  price : ℚ
  sentiment_score : ℚ
  positive_mentions : ℚ
  negative_mentions : ℚ
  neutral_mentions : ℚ
  mention_count : ℚ
  popularity_score : ℚ
  hype_score : ℚ
  confidence_score : ℚ
  final_summary : String
  top_keywords : List String
  taste_descriptors : List String
  occurrence_count : ℕ
deriving DecidableEq

/-- The scoring pass over one aggregated row (lines 188–204): divide the
running sentiment sum by `occurrence_count` when positive, derive the
mention count and the popularity/hype/confidence scores, space-join and
truncate the summary fragments, deduplicate and cap the keyword lists
(`list(set(x))[:10]`, modelled as `dedup` then `take 10`). -/
def scoreDish (ad : AggDish) : ScoredDish :=
  let sent :=
    if 0 < ad.occurrence_count then ad.sentiment_score / (ad.occurrence_count : ℚ)
    else ad.sentiment_score
  let total := ad.positive_mentions + ad.negative_mentions + ad.neutral_mentions
  { id := ad.id, dish_name := ad.dish_name, category := ad.category, price := ad.price,
    sentiment_score := sent,
    positive_mentions := ad.positive_mentions,
    negative_mentions := ad.negative_mentions,
    neutral_mentions := ad.neutral_mentions,
    mention_count := total,
    popularity_score := min (total * 5) 100,
    hype_score :=
      if 0 < total then ((ad.positive_mentions - ad.negative_mentions) / total) * 100 else 0,
    confidence_score := min (total * 10) 100,
    final_summary := takeStr (joinSpace ad.summary_parts) 500,
    top_keywords := ad.top_keywords.dedup.take 10,
    taste_descriptors := ad.taste_descriptors.dedup.take 10,
    occurrence_count := ad.occurrence_count }

/- ### Ranking and emission -/

/-- Python's sort key `(sentiment_score, positive_mentions)`. -/
def rankKey (d : ScoredDish) : ℚ × ℚ := (d.sentiment_score, d.positive_mentions)

/-- Whether `a` may precede `b` in the descending sort: the key of `a` is
lexicographically at least the key of `b`. -/
def rankLE (a b : ScoredDish) : Bool :=
  decide ((rankKey b).1 < (rankKey a).1) ||
    (decide ((rankKey a).1 = (rankKey b).1) && decide ((rankKey b).2 ≤ (rankKey a).2))

/-- The recommendation filter: positive mean sentiment and strictly more
positive than negative mentions. -/
def qualifiesDish (d : ScoredDish) : Bool :=
  decide (0 < d.sentiment_score) && decide (d.negative_mentions < d.positive_mentions)

/-- Filter, sort descending by `(sentiment_score, positive_mentions)`,
truncate to `limit`. -/
def rankedDishes (scored : List ScoredDish) (limit : ℕ) : List ScoredDish :=
  ((scored.filter qualifiesDish).mergeSort rankLE).take limit

/-- The id list put into the terminal `data:` event. -/
def rankedIds (scored : List ScoredDish) (limit : ℕ) : List ℕ :=
  (rankedDishes scored limit).map (fun d => d.id)

/-- An event on the SSE output stream. -/
inductive Event where
  | data (ids : List ℕ) : Event
  | error (msg : String) : Event
deriving DecidableEq

/-- All ids delivered to the caller over the stream. -/
def emittedIds (events : List Event) : List ℕ :=
  events.flatMap (fun e => match e with | Event.data ids => ids | Event.error _ => [])

/-- Whether an event is the error event. -/
def isErrorEvent : Event → Bool
  | Event.data _ => false
  | Event.error _ => true

/- ### Persistence -/

/-- One row of `dish_review_analytics`, as bound by the upsert query. -/
structure AnalyticsRecord where
  menu_item_id : ℕ
  hotel_id : ℕ
  mention_count : ℚ
  positive_mentions : ℚ
  negative_mentions : ℚ
  neutral_mentions : ℚ
  sentiment_score : ℚ
  popularity_score : ℚ
  hype_score : ℚ
  confidence_score : ℚ
  llm_summary : String
  top_keywords : List String
  taste_descriptors : List String
  processed_review_count : ℕ
deriving DecidableEq

/-- The parameter binding of the upsert for one scored dish. -/
def toRecord (hotelId reviewCount : ℕ) (d : ScoredDish) : AnalyticsRecord :=
  { menu_item_id := d.id, hotel_id := hotelId,
    mention_count := d.mention_count,
    positive_mentions := d.positive_mentions,
    negative_mentions := d.negative_mentions,
    neutral_mentions := d.neutral_mentions,
    sentiment_score := d.sentiment_score,
    popularity_score := d.popularity_score,
    hype_score := d.hype_score,
    confidence_score := d.confidence_score,
    llm_summary := d.final_summary,
    top_keywords := d.top_keywords,
    taste_descriptors := d.taste_descriptors,
    processed_review_count := reviewCount }

/-- The stored analytics table, keyed by `menu_item_id` (the conflict key). -/
abbrev AnalyticsStore := List (ℕ × AnalyticsRecord)

/-- Stored-row lookup by `menu_item_id`. -/
def lookupRec : AnalyticsStore → ℕ → Option AnalyticsRecord
  | [], _ => none
  | p :: t, k => if p.1 = k then some p.2 else lookupRec t k

/-- The upsert `INSERT ... ON CONFLICT (menu_item_id) DO UPDATE`: full replace of every
field at an existing key, insert otherwise. -/
def upsertRec : AnalyticsStore → AnalyticsRecord → AnalyticsStore
  | [], r => [(r.menu_item_id, r)]
  | p :: t, r => if p.1 = r.menu_item_id then (p.1, r) :: t else p :: upsertRec t r

/-- Apply the run's upserts in order. -/
def execUpserts (store : AnalyticsStore) (recs : List AnalyticsRecord) : AnalyticsStore :=
  recs.foldl upsertRec store

/-- Modelled from the spec: the run executes every upsert inside one
`engine.begin()` transaction; the transaction machinery itself is the
external storage collaborator, whose commit/rollback behaviour the spec
describes as a single all-or-nothing unit.  `failure` abstracts any upsert
of the run failing: the transaction rolls back and the run reports a
persistence failure (the outer handler yields one error event). -/
def runPersist (store : AnalyticsStore) (recs : List AnalyticsRecord) (failure : Bool) :
    AnalyticsStore × List Event :=
  if failure then (store, [Event.error "persistence failure"])
  else (execUpserts store recs, [])

/- ### Pipeline orchestration -/

/-- The observable outcome of one pipeline run: the final aggregation map,
the scored dishes, the records handed to the persister, and the emitted
stream events. -/
structure PipelineOut where
  agg : AggState
  scored : List ScoredDish
  persisted : List AnalyticsRecord
  events : List Event
deriving DecidableEq

/-- The pipeline from the completed inference responses on: merge each
response in completion order, score every aggregated row, and — only when
at least one dish was scored — persist all records and emit the single
terminal `data:` event with the ranked ids. -/
def pipelineFromResponses (menu : List MenuItem) (hotelId reviewCount : ℕ)
    (responses : List String) (limit : ℕ) : PipelineOut :=
  let st := responses.foldl (batchStep menu) []
  let scored := st.map (fun p => scoreDish p.2)
  if scored = [] then { agg := st, scored := scored, persisted := [], events := [] }
  else
    { agg := st, scored := scored,
      persisted := scored.map (toRecord hotelId reviewCount),
      events := [Event.data (rankedIds scored limit)] }

/-- An input review row (`id, comment` with non-null comment). -/
structure Review where
  id : ℕ
  comment : String
deriving DecidableEq

/-- Outcome of a full run, including how many inference calls were issued. -/
structure RunResult where
  inferenceCalls : ℕ
  out : PipelineOut
deriving DecidableEq

/-- The chunk count `total_chunks = (len(review_results) + chunk_size - 1) // chunk_size`
with `chunk_size = 4`. -/
def chunkCount (n : ℕ) : ℕ := (n + 4 - 1) / 4

/-- The full run: an empty review set returns immediately (no prompts, no
inference calls, no writes, no events); otherwise one inference call per
chunk of 4 reviews is dispatched and the responses drive the pipeline.
`respond` abstracts the inference collaborator, indexed by batch. -/
def runPipeline (hotelId : ℕ) (reviews : List Review) (menu : List MenuItem)
    (respond : ℕ → String) (limit : ℕ) : RunResult :=
  if reviews = [] then
    { inferenceCalls := 0, out := { agg := [], scored := [], persisted := [], events := [] } }
  else
    let nBatches := chunkCount reviews.length
    let responses := (List.range nBatches).map respond
    { inferenceCalls := nBatches,
      out := pipelineFromResponses menu hotelId reviews.length responses limit }

/- ### Merge-order invariance: projection infrastructure -/

/-- The order-insensitive view of one aggregated row: the three mention
sums, the running sentiment sum, the occurrence count, and the keyword and
descriptor collections as multisets.  This is a product of commutative
monoids, so contribution lists can be summed. -/
abbrev Proj := ℚ × ℚ × ℚ × ℚ × ℕ × Multiset String × Multiset String

/-- Project an aggregated row onto its order-insensitive view. -/
def projOf (a : AggDish) : Proj :=
  (a.positive_mentions, a.negative_mentions, a.neutral_mentions, a.sentiment_score,
   a.occurrence_count, (a.top_keywords : Multiset String),
   (a.taste_descriptors : Multiset String))

/-- The contribution of one merged observation to the view of its row. -/
def contribOf (d : Dish) : Proj :=
  (d.positive_mentions, d.negative_mentions, d.neutral_mentions, d.sentiment_score,
   1, (d.top_keywords : Multiset String), (d.taste_descriptors : Multiset String))

/-- The view of the row at key `k`. -/
def projAt (st : AggState) (k : ℕ) : Option Proj := (lookupA st k).map projOf

/-- Merging one contribution into an optional view: a missing row is created
from zero. -/
def applyOne (o : Option Proj) (c : Proj) : Option Proj := some (o.getD 0 + c)

/-- The contributions a batch makes to the row at key `k`, in merge order
(cut short at an element that raises, like `processElems`). -/
def elemContribs (menu : List MenuItem) (k : ℕ) : List Json → List Proj
  | [] => []
  | e :: rest =>
    match dishAction menu e with
    | none => []
    | some none => elemContribs menu k rest
    | some (some (item, d)) =>
      (if item.id = k then [contribOf d] else []) ++ elemContribs menu k rest

/-- The contributions of a list of batches to the row at key `k`. -/
def batchListContribs (menu : List MenuItem) (k : ℕ) (bs : List (List Json)) : List Proj :=
  (bs.map (elemContribs menu k)).flatten

theorem projOf_addDish (a : AggDish) (d : Dish) :
    projOf (addDish a d) = projOf a + contribOf d := by
  simp only [projOf, addDish, contribOf, Prod.mk_add_mk, Prod.mk.injEq]
  simp [Multiset.coe_add]

theorem projOf_emptyAgg (item : MenuItem) : projOf (emptyAgg item) = 0 := by
  simp only [projOf, emptyAgg]
  rfl

theorem lookupA_append (st : AggState) (k i : ℕ) (v : AggDish) :
    lookupA (st ++ [(i, v)]) k =
      match lookupA st k with
      | some a => some a
      | none => if i = k then some v else none := by
  induction st with
  | nil => simp [lookupA]
  | cons p t ih =>
    by_cases h : p.1 = k <;> simp [lookupA, h, ih]

theorem lookupA_updateA_ne (k k' : ℕ) (h : k' ≠ k) (v : AggDish) :
    ∀ st : AggState, lookupA (updateA st k v) k' = lookupA st k'
  | [] => rfl
  | (i, a) :: t => by
    by_cases hp : i = k
    · subst hp
      have hik : ¬ i = k' := fun e => h e.symm
      simp only [updateA, if_pos rfl, lookupA, if_neg hik]
    · simp only [updateA, if_neg hp, lookupA]
      by_cases hk2 : i = k'
      · simp only [if_pos hk2]
      · simp only [if_neg hk2, lookupA_updateA_ne k k' h v t]

theorem lookupA_updateA_found (v : AggDish) :
    ∀ (st : AggState) {k : ℕ} {a : AggDish}, lookupA st k = some a →
      lookupA (updateA st k v) k = some v
  | [], k, a, h => by simp [lookupA] at h
  | (i, b) :: t, k, a, h => by
    by_cases hp : i = k
    · subst hp
      simp [updateA, lookupA]
    · have h' : lookupA t k = some a := by
        simpa [lookupA, hp] using h
      simp only [updateA, if_neg hp, lookupA,
        lookupA_updateA_found v t h']

theorem projAt_mergeObs (st : AggState) (item : MenuItem) (d : Dish) (k : ℕ) :
    projAt (mergeObs st item d) k =
      if item.id = k then applyOne (projAt st k) (contribOf d) else projAt st k := by
  unfold mergeObs
  cases h : lookupA st item.id with
  | none =>
    have happ := lookupA_append st k item.id (addDish (emptyAgg item) d)
    by_cases hk : item.id = k
    · subst hk
      simp [projAt, happ, h, applyOne, projOf_addDish, projOf_emptyAgg]
    · have hsame : lookupA (st ++ [(item.id, addDish (emptyAgg item) d)]) k = lookupA st k := by
        rw [happ]
        cases hsk : lookupA st k with
        | none => simp [hk]
        | some a => simp
      simp [projAt, hsame, hk]
  | some a =>
    by_cases hk : item.id = k
    · subst hk
      have hf := lookupA_updateA_found (addDish a d) st h
      simp [projAt, hf, h, applyOne, projOf_addDish]
    · have hne := lookupA_updateA_ne item.id k (fun e => hk e.symm) (addDish a d) st
      simp [projAt, hne, hk]

theorem projAt_processElems (menu : List MenuItem) (k : ℕ) :
    ∀ (es : List Json) (st : AggState),
      projAt (processElems menu es st) k =
        (elemContribs menu k es).foldl applyOne (projAt st k) := by
  intro es
  induction es with
  | nil => intro st; simp [processElems, elemContribs]
  | cons e rest ih =>
    intro st
    cases h : dishAction menu e with
    | none => simp [processElems, elemContribs, h]
    | some o =>
      cases o with
      | none => simp [processElems, elemContribs, h, ih]
      | some pd =>
        obtain ⟨item, d⟩ := pd
        simp only [processElems, elemContribs, h]
        rw [ih, projAt_mergeObs, List.foldl_append]
        by_cases hk : item.id = k
        · simp [hk]
        · simp [hk]

theorem projAt_foldBatches (menu : List MenuItem) (k : ℕ) :
    ∀ (bs : List (List Json)) (st : AggState),
      projAt (bs.foldl (fun s es => processElems menu es s) st) k =
        (batchListContribs menu k bs).foldl applyOne (projAt st k) := by
  intro bs
  induction bs with
  | nil => intro st; simp [batchListContribs]
  | cons b t ih =>
    intro st
    simp only [List.foldl_cons, batchListContribs, List.map_cons, List.flatten_cons]
    rw [ih, List.foldl_append, projAt_processElems]
    simp [batchListContribs]

theorem foldl_applyOne_some (L : List Proj) :
    ∀ p : Proj, L.foldl applyOne (some p) = some (p + L.sum) := by
  induction L with
  | nil => intro p; simp [applyOne]
  | cons c t ih =>
    intro p
    simp only [List.foldl_cons, applyOne, Option.getD_some, List.sum_cons]
    rw [ih, add_assoc]

theorem foldl_applyOne_none (L : List Proj) :
    L.foldl applyOne none = if L.isEmpty then none else some L.sum := by
  cases L with
  | nil => rfl
  | cons c t =>
    simp only [List.isEmpty_cons, Bool.false_eq_true, if_false, List.sum_cons,
      List.foldl_cons]
    show List.foldl applyOne (some (0 + c)) t = some (c + t.sum)
    rw [foldl_applyOne_some, zero_add]

theorem batchListContribs_perm (menu : List MenuItem) (k : ℕ)
    {bs₁ bs₂ : List (List Json)} (h : bs₁.Perm bs₂) :
    (batchListContribs menu k bs₁).Perm (batchListContribs menu k bs₂) :=
  (h.map (elemContribs menu k)).flatten

/-- The heart of the merge-order claims: the order-insensitive view of every
row of the final aggregation map does not depend on the completion order of
the batches. -/
theorem projAt_runAggJson_perm (menu : List MenuItem)
    {bs₁ bs₂ : List (List Json)} (h : bs₁.Perm bs₂) (k : ℕ) :
    projAt (runAggJson menu bs₁) k = projAt (runAggJson menu bs₂) k := by
  unfold runAggJson
  rw [projAt_foldBatches, projAt_foldBatches]
  have hp := batchListContribs_perm menu k h
  have hempty : projAt ([] : AggState) k = none := rfl
  rw [hempty, foldl_applyOne_none, foldl_applyOne_none]
  by_cases h1 : (batchListContribs menu k bs₁).isEmpty = true
  · have h2 : (batchListContribs menu k bs₂).isEmpty = true := by
      rw [List.isEmpty_iff] at h1 ⊢
      have hp2 := hp.symm
      rw [h1] at hp2
      exact hp2.eq_nil
    rw [if_pos h1, if_pos h2]
  · have h2 : ¬ (batchListContribs menu k bs₂).isEmpty = true := by
      rw [List.isEmpty_iff] at h1 ⊢
      intro h2
      have hp2 := hp
      rw [h2] at hp2
      exact h1 hp2.eq_nil
    rw [if_neg h1, if_neg h2, hp.sum_eq]

/- ### C1: merge invariance under completion order -/

/-- C1 (amended): for a fixed set of per-batch dish observations, any two
completion orders of the batches yield, for every catalog id, final rows
with equal positive/negative/neutral mention sums, equal mean sentiment
score (`running sum / occurrence_count`, exact in `ℚ`), and keyword and
descriptor collections equal as multisets (hence as sets) *before* the
dedup-and-cap step; the deduplicated-and-capped keyword (resp. descriptor)
lists of the scored rows are moreover equal as sets whenever the row has at
most 10 distinct keywords (resp. descriptors).  With more than 10 distinct
entries, `list(set(x))[:10]` may keep different elements for different
completion orders, so the original claim fails there — see
`c1_counterexample`. -/
theorem c1_merge_completion_order_invariant (menu : List MenuItem)
    {bs₁ bs₂ : List (List Json)} (h : bs₁.Perm bs₂) (k : ℕ) :
    ((lookupA (runAggJson menu bs₁) k).map fun a =>
        (a.positive_mentions, a.negative_mentions, a.neutral_mentions)) =
      ((lookupA (runAggJson menu bs₂) k).map fun a =>
        (a.positive_mentions, a.negative_mentions, a.neutral_mentions)) ∧
    ((lookupA (runAggJson menu bs₁) k).map fun a =>
        a.sentiment_score / (a.occurrence_count : ℚ)) =
      ((lookupA (runAggJson menu bs₂) k).map fun a =>
        a.sentiment_score / (a.occurrence_count : ℚ)) ∧
    ((lookupA (runAggJson menu bs₁) k).map fun a => (a.top_keywords : Multiset String)) =
      ((lookupA (runAggJson menu bs₂) k).map fun a => (a.top_keywords : Multiset String)) ∧
    ((lookupA (runAggJson menu bs₁) k).map fun a => (a.taste_descriptors : Multiset String)) =
      ((lookupA (runAggJson menu bs₂) k).map fun a => (a.taste_descriptors : Multiset String)) ∧
    (∀ a₁ a₂, lookupA (runAggJson menu bs₁) k = some a₁ →
      lookupA (runAggJson menu bs₂) k = some a₂ →
      (a₁.top_keywords.dedup.length ≤ 10 →
        (scoreDish a₁).top_keywords.toFinset = (scoreDish a₂).top_keywords.toFinset) ∧
      (a₁.taste_descriptors.dedup.length ≤ 10 →
        (scoreDish a₁).taste_descriptors.toFinset = (scoreDish a₂).taste_descriptors.toFinset)) := by
  have hmain := projAt_runAggJson_perm menu h k
  cases h₁ : lookupA (runAggJson menu bs₁) k with
  | none =>
    cases h₂ : lookupA (runAggJson menu bs₂) k with
    | none => simp
    | some a₂ =>
      rw [projAt, projAt, h₁, h₂] at hmain
      simp at hmain
  | some a₁ =>
    cases h₂ : lookupA (runAggJson menu bs₂) k with
    | none =>
      rw [projAt, projAt, h₁, h₂] at hmain
      simp at hmain
    | some a₂ =>
      rw [projAt, projAt, h₁, h₂] at hmain
      simp at hmain
      have hfields := hmain
      simp only [projOf, Prod.mk.injEq] at hfields
      obtain ⟨hpos, hneg, hneu, hsent, hocc, hkw, htd⟩ := hfields
      refine ⟨by simp [hpos, hneg, hneu], by simp [hsent, hocc],
        by simp [hkw], by simp [htd], ?_⟩
      intro b₁ b₂ hb₁ hb₂
      obtain rfl : a₁ = b₁ := Option.some.inj hb₁
      obtain rfl : a₂ = b₂ := Option.some.inj hb₂
      have hkperm : a₁.top_keywords.Perm a₂.top_keywords := Multiset.coe_eq_coe.mp hkw
      have htperm : a₁.taste_descriptors.Perm a₂.taste_descriptors :=
        Multiset.coe_eq_coe.mp htd
      constructor
      · intro hlen
        have hd := hkperm.dedup
        have hlen₂ : a₂.top_keywords.dedup.length ≤ 10 := hd.length_eq ▸ hlen
        show (a₁.top_keywords.dedup.take 10).toFinset = (a₂.top_keywords.dedup.take 10).toFinset
        rw [List.take_of_length_le hlen, List.take_of_length_le hlen₂]
        exact List.toFinset_eq_of_perm _ _ hd
      · intro hlen
        have hd := htperm.dedup
        have hlen₂ : a₂.taste_descriptors.dedup.length ≤ 10 := hd.length_eq ▸ hlen
        show (a₁.taste_descriptors.dedup.take 10).toFinset =
          (a₂.taste_descriptors.dedup.take 10).toFinset
        rw [List.take_of_length_le hlen, List.take_of_length_le hlen₂]
        exact List.toFinset_eq_of_perm _ _ hd

/-- A one-entry catalog for the merge-order example runs. -/
def menuC1 : List MenuItem := [⟨1, "a", "c", 0⟩]

/-- A batch observation of dish "a" carrying six distinct keywords. -/
def obsA : Json :=
  Json.obj [("name", Json.str "a"),
    ("top_keywords", Json.arr [Json.str "1", Json.str "2", Json.str "3",
      Json.str "4", Json.str "5", Json.str "6"])]

/-- A batch observation of dish "a" carrying five further distinct keywords. -/
def obsB : Json :=
  Json.obj [("name", Json.str "a"),
    ("top_keywords", Json.arr [Json.str "7", Json.str "8", Json.str "9",
      Json.str "10", Json.str "11"])]

/-- Witness for C1: a concrete two-batch run and its swapped completion
order have equal mention sums at catalog id 1. -/
theorem c1_merge_completion_order_invariant_witness :
    ((lookupA (runAggJson menuC1 [[obsA], [obsB]]) 1).map fun a =>
        (a.positive_mentions, a.negative_mentions, a.neutral_mentions)) =
      ((lookupA (runAggJson menuC1 [[obsB], [obsA]]) 1).map fun a =>
        (a.positive_mentions, a.negative_mentions, a.neutral_mentions)) :=
  (c1_merge_completion_order_invariant menuC1 (List.Perm.swap [obsB] [obsA] []) 1).1

/-- C1 counterexample (to the claim as stated): the two observations above
together carry 11 distinct keywords, so after `list(set(x))[:10]` the two
completion orders keep *different* keyword sets for catalog id 1 — the
capped `top_keywords` of the final row are not equal as sets. -/
theorem c1_counterexample :
    ([[obsA], [obsB]] : List (List Json)).Perm [[obsB], [obsA]] ∧
    ((lookupA (runAggJson menuC1 [[obsA], [obsB]]) 1).map fun a =>
        (scoreDish a).top_keywords.toFinset) ≠
      ((lookupA (runAggJson menuC1 [[obsB], [obsA]]) 1).map fun a =>
        (scoreDish a).top_keywords.toFinset) :=
  ⟨List.Perm.swap [obsB] [obsA] [], by decide⟩

/- ### Pipeline output shape lemmas -/

theorem pipelineFromResponses_scored (menu : List MenuItem) (hotelId reviewCount : ℕ)
    (responses : List String) (limit : ℕ) :
    (pipelineFromResponses menu hotelId reviewCount responses limit).scored =
      (responses.foldl (batchStep menu) []).map (fun p => scoreDish p.2) := by
  by_cases h : (responses.foldl (batchStep menu) []).map (fun p => scoreDish p.2) = [] <;>
    simp [pipelineFromResponses, h]

theorem pipelineFromResponses_events (menu : List MenuItem) (hotelId reviewCount : ℕ)
    (responses : List String) (limit : ℕ) :
    (pipelineFromResponses menu hotelId reviewCount responses limit).events =
      (if (pipelineFromResponses menu hotelId reviewCount responses limit).scored = [] then []
       else [Event.data
         (rankedIds (pipelineFromResponses menu hotelId reviewCount responses limit).scored
           limit)]) := by
  by_cases h : (responses.foldl (batchStep menu) []).map (fun p => scoreDish p.2) = [] <;>
    simp [pipelineFromResponses, h]

/- ### C5: tolerant response parsing -/

/-- C5 (amended): the code's parser takes the span from the *first opening
brace to the last closing brace* of the response (the regex
`\x7b[\s\S]*\x7d` is greedy), not the first balanced span, and decodes it;
whenever no such span exists or decoding fails (`parseBatch t = none`), the
batch contributes exactly zero observations — the aggregation state is
untouched and the run continues with the next completion.  On a successful
decode the extracted `dishes` list is merged element by element. -/
theorem c5_parser_soft_failure (menu : List MenuItem) (st : AggState) (t : String) :
    (parseBatch t = none → batchStep menu st t = st) ∧
    (∀ es, parseBatch t = some es → batchStep menu st t = processElems menu es st) := by
  constructor
  · intro h
    simp [batchStep, h]
  · intro es h
    simp [batchStep, h]

/-- Witness for C5: a prose-only response leaves a concrete state exactly
unchanged. -/
theorem c5_parser_soft_failure_witness :
    batchStep [⟨1, "idli", "b", 2⟩] [] "there are no dishes found" = [] :=
  (c5_parser_soft_failure [⟨1, "idli", "b", 2⟩] [] "there are no dishes found").1 (by rfl)

/-- The response text of the C5 counterexample: a well-formed `dishes`
payload, then prose, then one more brace pair. -/
def tC5 : String := "\x7b\"dishes\":[\x7b\"name\":\"a\"\x7d]\x7d also \x7b\x7d"

/-- Modelled from the spec: the Response Parser contract of spec section 4.2
— "locate the first balanced top-level structured-object span embedded
anywhere in the text and decode it into a list of DishObservation".  This is
the claim's parser, built from `firstBalancedSpan`, to be compared with the
code's `parseBatch`. -/
def claimParse (t : String) : Option (List Json) :=
  match firstBalancedSpan t with
  | none => none
  | some sp =>
    match jsonParse sp with
    | none => none
    | some j => some (dishesOf j)

/-- C5 counterexample (to the claim as stated): on `tC5` the first balanced
span decodes to exactly one dish observation, but the code's greedy
first-to-last-brace span is not valid JSON, so decoding fails and the batch
contributes zero observations instead of that observation. -/
theorem c5_counterexample :
    (claimParse tC5).map (fun es => es.filterMap mkDish) =
      some [{ name := "a", positive_mentions := 0, negative_mentions := 0,
              neutral_mentions := 0, sentiment_score := 0, top_keywords := [],
              taste_descriptors := [], summary := "" }] ∧
    parseBatch tC5 = none := by
  constructor
  · decide
  · rfl

/- ### C6: malformed-batch omission equivalence -/

/-- C6: a batch whose inference response is unparseable contributes nothing:
the run's entire outcome — aggregation map, scored dishes, persisted
records and emitted events — equals that of the same run with that response
omitted. -/
theorem c6_malformed_batch_omission (menu : List MenuItem) (hotelId reviewCount limit : ℕ)
    (ts₁ ts₂ : List String) {t : String} (h : parseBatch t = none) :
    pipelineFromResponses menu hotelId reviewCount (ts₁ ++ t :: ts₂) limit =
      pipelineFromResponses menu hotelId reviewCount (ts₁ ++ ts₂) limit := by
  have hstep : ∀ st, batchStep menu st t = st := fun st => by simp [batchStep, h]
  have hfold : (ts₁ ++ t :: ts₂).foldl (batchStep menu) ([] : AggState) =
      (ts₁ ++ ts₂).foldl (batchStep menu) [] := by
    rw [List.foldl_append, List.foldl_append, List.foldl_cons, hstep]
  simp [pipelineFromResponses, hfold]

/-- Witness for C6: dropping a concrete garbage response from a concrete
two-response run leaves the outcome literally equal. -/
theorem c6_malformed_batch_omission_witness :
    pipelineFromResponses [⟨1, "idli", "b", 2⟩] 1 4
        (["\x7b\"dishes\":[\x7b\"name\":\"idli\",\"positive_mentions\":1,\"sentiment_score\":0.5\x7d]\x7d"]
          ++ "total garbage" :: []) 20 =
      pipelineFromResponses [⟨1, "idli", "b", 2⟩] 1 4
        (["\x7b\"dishes\":[\x7b\"name\":\"idli\",\"positive_mentions\":1,\"sentiment_score\":0.5\x7d]\x7d"]
          ++ []) 20 :=
  c6_malformed_batch_omission [⟨1, "idli", "b", 2⟩] 1 4 20 _ [] (by rfl)

/- ### C8: empty review set -/

/-- C8: an empty loaded review set makes the run terminate immediately with
an empty, non-error outcome: zero inference calls, no aggregation, no
persistence writes, no events. -/
theorem c8_empty_reviews (hotelId : ℕ) (reviews : List Review) (menu : List MenuItem)
    (respond : ℕ → String) (limit : ℕ) (h : reviews = []) :
    runPipeline hotelId reviews menu respond limit =
      { inferenceCalls := 0,
        out := { agg := [], scored := [], persisted := [], events := [] } } := by
  subst h
  simp [runPipeline]

/-- Witness for C8 at a concrete empty run. -/
theorem c8_empty_reviews_witness :
    runPipeline 1 [] [⟨1, "idli", "b", 2⟩] (fun _ => "resp") 20 =
      { inferenceCalls := 0,
        out := { agg := [], scored := [], persisted := [], events := [] } } :=
  c8_empty_reviews 1 [] [⟨1, "idli", "b", 2⟩] (fun _ => "resp") 20 rfl

/- ### C10: empty dish name skipped -/

/-- C10: a parsed dishes entry whose `name` is missing (`dish.get("name",
"")` gives `""`) or the empty string hits the `continue`: the entry is
skipped without error and the aggregation state is untouched by it. -/
theorem c10_empty_name_skipped (menu : List MenuItem) (e : Json) (rest : List Json)
    (st : AggState) {d : Dish} (hdish : mkDish e = some d) (hname : d.name = "") :
    dishAction menu e = some none ∧
    processElems menu (e :: rest) st = processElems menu rest st := by
  have hl : lowerStr d.name = "" := by rw [hname]; rfl
  have ha : dishAction menu e = some none := by
    simp [dishAction, hdish, hl]
  exact ⟨ha, by simp [processElems, ha]⟩

/-- Witness for C10: an object with no `name` field is skipped and a
concrete state is unchanged. -/
theorem c10_empty_name_skipped_witness :
    processElems [⟨1, "idli", "b", 2⟩] [Json.obj []] [] =
      processElems [⟨1, "idli", "b", 2⟩] [] [] :=
  (c10_empty_name_skipped [⟨1, "idli", "b", 2⟩] (Json.obj []) [] [] (by rfl) (by rfl)).2

/- ### C2: ranking law -/

theorem rankLE_trans (a b c : ScoredDish) (h₁ : rankLE a b) (h₂ : rankLE b c) : rankLE a c := by
  simp only [rankLE, rankKey, Bool.or_eq_true, Bool.and_eq_true, decide_eq_true_eq] at h₁ h₂ ⊢
  rcases h₁ with h₁ | ⟨h₁e, h₁p⟩ <;> rcases h₂ with h₂ | ⟨h₂e, h₂p⟩
  · exact Or.inl (h₂.trans h₁)
  · exact Or.inl (by rw [← h₂e]; exact h₁)
  · exact Or.inl (by rw [h₁e]; exact h₂)
  · exact Or.inr ⟨h₁e.trans h₂e, h₂p.trans h₁p⟩

theorem rankLE_total (a b : ScoredDish) : rankLE a b || rankLE b a := by
  simp only [rankLE, rankKey, Bool.or_eq_true, Bool.and_eq_true, decide_eq_true_eq]
  rcases lt_trichotomy a.sentiment_score b.sentiment_score with h | h | h
  · exact Or.inr (Or.inl h)
  · rcases le_total a.positive_mentions b.positive_mentions with hp | hp
    · exact Or.inr (Or.inr ⟨h.symm, hp⟩)
    · exact Or.inl (Or.inr ⟨h, hp⟩)
  · exact Or.inl (Or.inl h)

/-- C2: the emitted ranked list (the ids of `rankedDishes`) is computed by
filter → stable sort → truncate: every emitted dish comes from the scored
set and satisfies `sentiment_score > 0` and `positive_mentions >
negative_mentions`; the list is sorted descending by the lexicographic pair
`(sentiment_score, positive_mentions)`; its length is at most `limit`; and
on a run with a non-empty scored set the single terminal event carries
exactly those ids. -/
theorem c2_ranking_law (menu : List MenuItem) (hotelId reviewCount limit : ℕ)
    (responses : List String) :
    ((pipelineFromResponses menu hotelId reviewCount responses limit).scored ≠ [] →
      (pipelineFromResponses menu hotelId reviewCount responses limit).events =
        [Event.data (rankedIds
          (pipelineFromResponses menu hotelId reviewCount responses limit).scored limit)]) ∧
    (∀ scored : List ScoredDish,
      (∀ d ∈ rankedDishes scored limit, d ∈ scored ∧
          0 < d.sentiment_score ∧ d.negative_mentions < d.positive_mentions) ∧
      (rankedDishes scored limit).Pairwise (fun a b =>
        b.sentiment_score < a.sentiment_score ∨
          (a.sentiment_score = b.sentiment_score ∧
            b.positive_mentions ≤ a.positive_mentions)) ∧
      (rankedDishes scored limit).length ≤ limit) := by
  constructor
  · intro hne
    rw [pipelineFromResponses_events]
    simp [hne]
  · intro scored
    refine ⟨?_, ?_, ?_⟩
    · intro d hd
      have hd' : d ∈ (scored.filter qualifiesDish).mergeSort rankLE :=
        List.take_subset _ _ hd
      rw [List.mem_mergeSort, List.mem_filter] at hd'
      have hq := hd'.2
      simp only [qualifiesDish, Bool.and_eq_true, decide_eq_true_eq] at hq
      exact ⟨hd'.1, hq.1, hq.2⟩
    · have hs := @List.sorted_mergeSort ScoredDish rankLE
        (fun a b c => rankLE_trans a b c) (fun a b => rankLE_total a b)
        (scored.filter qualifiesDish)
      have hp : (rankedDishes scored limit).Pairwise (fun a b => rankLE a b = true) :=
        List.Pairwise.sublist (List.take_sublist _ _) hs
      refine hp.imp ?_
      intro a b hab
      simpa [rankLE, rankKey, Bool.or_eq_true, Bool.and_eq_true, decide_eq_true_eq]
        using hab
    · rw [rankedDishes, List.length_take]
      exact min_le_left _ _

/-- Witness for C2: a concrete one-batch run with one scored dish emits the
single terminal event with its ranked ids. -/
theorem c2_ranking_law_witness :
    (pipelineFromResponses [⟨1, "idli", "b", 2⟩] 1 4
        ["\x7b\"dishes\":[\x7b\"name\":\"idli\",\"positive_mentions\":1,\"sentiment_score\":0.5\x7d]\x7d"]
        20).events =
      [Event.data (rankedIds
        (pipelineFromResponses [⟨1, "idli", "b", 2⟩] 1 4
          ["\x7b\"dishes\":[\x7b\"name\":\"idli\",\"positive_mentions\":1,\"sentiment_score\":0.5\x7d]\x7d"]
          20).scored 20)] :=
  (c2_ranking_law [⟨1, "idli", "b", 2⟩] 1 4 20
    ["\x7b\"dishes\":[\x7b\"name\":\"idli\",\"positive_mentions\":1,\"sentiment_score\":0.5\x7d]\x7d"]).1
    (by decide)

/- ### C3: scorer formulas -/

/-- C3 (amended): at scoring time (`occurrence_count > 0`) the derived
fields are exactly the stated formulas; `final_summary` is the summary
fragments *joined with single spaces* (`" ".join`), truncated to 500
characters — not their plain concatenation — and the keyword/descriptor
lists are deduplicated then capped at 10.  The Scorer is a pure function of
the row by construction (`scoreDish` is a plain definition). -/
theorem c3_scorer_formulas (ad : AggDish) (h : 0 < ad.occurrence_count) :
    (scoreDish ad).sentiment_score = ad.sentiment_score / (ad.occurrence_count : ℚ) ∧
    (scoreDish ad).mention_count =
      ad.positive_mentions + ad.negative_mentions + ad.neutral_mentions ∧
    (scoreDish ad).popularity_score = min ((scoreDish ad).mention_count * 5) 100 ∧
    (scoreDish ad).hype_score =
      (if 0 < (scoreDish ad).mention_count then
        ((ad.positive_mentions - ad.negative_mentions) / (scoreDish ad).mention_count) * 100
      else 0) ∧
    (scoreDish ad).confidence_score = min ((scoreDish ad).mention_count * 10) 100 ∧
    (scoreDish ad).final_summary = takeStr (joinSpace ad.summary_parts) 500 ∧
    (scoreDish ad).top_keywords = ad.top_keywords.dedup.take 10 ∧
    (scoreDish ad).taste_descriptors = ad.taste_descriptors.dedup.take 10 := by
  refine ⟨?_, rfl, rfl, rfl, rfl, rfl, rfl, rfl⟩
  simp [scoreDish, h]

/-- The aggregated row used by the C3 example and counterexample. -/
def adC3 : AggDish :=
  { id := 1, dish_name := "a", category := "c", price := 0, sentiment_score := 1,
    positive_mentions := 1, negative_mentions := 0, neutral_mentions := 0,
    top_keywords := [], taste_descriptors := [], summary_parts := ["good", "value"],
    occurrence_count := 1 }

/-- Witness for C3 at a concrete aggregated row. -/
theorem c3_scorer_formulas_witness :
    (scoreDish adC3).sentiment_score = adC3.sentiment_score / (adC3.occurrence_count : ℚ) :=
  (c3_scorer_formulas adC3 (by decide)).1

/-- C3 counterexample (to the claim as stated): the code space-joins the
summary fragments (`" ".join(...)[:500]`), so the final summary differs
from the plain concatenation of the fragments truncated to 500
characters. -/
theorem c3_counterexample :
    (scoreDish adC3).final_summary ≠ takeStr (concatAll adC3.summary_parts) 500 := by
  decide

/- ### C4: catalog matcher -/

/-- Modelled from the spec's matching rule, as a proposition on one entry: a
single token must occur case-insensitively in the entry name; with two or
more tokens the *first* and the *last* token must both occur. -/
def Qualifies (ws : List String) (item : MenuItem) : Prop :=
  match ws with
  | [] => False
  | [w] => strIn w (lowerStr item.name) = true
  | w :: v :: rest =>
    strIn w (lowerStr item.name) = true ∧
      strIn ((v :: rest).getLast (List.cons_ne_nil v rest)) (lowerStr item.name) = true

theorem matchesWords_iff (ws : List String) (item : MenuItem) :
    matchesWords ws item = true ↔ Qualifies ws item := by
  match ws with
  | [] => simp [matchesWords, Qualifies]
  | [w] => simp [matchesWords, Qualifies]
  | w :: v :: rest => simp [matchesWords, Qualifies, Bool.and_eq_true]

/-- C4: with at least one token, the matcher returns the first catalog entry
(in catalog iteration order) satisfying the spec's single-token or
first-and-last-token substring rule; when no entry qualifies it returns
nothing and the observation is dropped without error (the batch state is
untouched and processing continues with the remaining observations).
Determinism is definitional: `matchDish` is a pure function of the catalog
order and the token list. -/
theorem c4_matcher (menu : List MenuItem) (name : String)
    (hws : pyWords (lowerStr name) ≠ []) :
    (∀ item, matchDish menu (pyWords (lowerStr name)) = some item →
      Qualifies (pyWords (lowerStr name)) item ∧
        ∃ pre post, menu = pre ++ item :: post ∧
          ∀ x ∈ pre, ¬ Qualifies (pyWords (lowerStr name)) x) ∧
    (matchDish menu (pyWords (lowerStr name)) = none →
      ∀ item ∈ menu, ¬ Qualifies (pyWords (lowerStr name)) item) ∧
    (∀ (d : Dish), lowerStr d.name ≠ "" →
      pyWords (lowerStr d.name) = pyWords (lowerStr name) →
      matchDish menu (pyWords (lowerStr name)) = none →
      ∀ (e : Json) (rest : List Json) (st : AggState), mkDish e = some d →
        processElems menu (e :: rest) st = processElems menu rest st) := by
  refine ⟨?_, ?_, ?_⟩
  · intro item hfind
    rw [matchDish, List.find?_eq_some] at hfind
    obtain ⟨hq, pre, post, hsplit, hpre⟩ := hfind
    refine ⟨(matchesWords_iff _ _).mp hq, pre, post, hsplit, ?_⟩
    intro x hx hqx
    have := hpre x hx
    rw [Bool.not_eq_true'] at this
    rw [← matchesWords_iff _ _] at hqx
    rw [this] at hqx
    cases hqx
  · intro hnone item hitem
    rw [matchDish, List.find?_eq_none] at hnone
    intro hq
    exact hnone item hitem ((matchesWords_iff _ _).mpr hq)
  · intro d hdn hpw hnone e rest st hdish
    obtain ⟨w, ws0, hcons⟩ := List.exists_cons_of_ne_nil hws
    have hnone' : matchDish menu (w :: ws0) = none := by rw [← hcons]; exact hnone
    have ha : dishAction menu e = some none := by
      rw [dishAction, hdish]
      simp only [if_neg hdn, hpw, hcons, hnone']
    simp [processElems, ha]

/-- Witness for C4 at a concrete catalog and dish name: the characterization
of the returned entry holds for "butter chicken" against a two-entry
catalog. -/
theorem c4_matcher_witness :
    Qualifies (pyWords (lowerStr "butter chicken")) ⟨1, "Butter Chicken", "m", 5⟩ ∧
      ∃ pre post, [⟨1, "Butter Chicken", "m", 5⟩, ⟨2, "Paneer Tikka", "m", 4⟩] =
          pre ++ (⟨1, "Butter Chicken", "m", 5⟩ : MenuItem) :: post ∧
        ∀ x ∈ pre, ¬ Qualifies (pyWords (lowerStr "butter chicken")) x :=
  (c4_matcher [⟨1, "Butter Chicken", "m", 5⟩, ⟨2, "Paneer Tikka", "m", 4⟩]
    "butter chicken" (by decide)).1 ⟨1, "Butter Chicken", "m", 5⟩ (by decide)

/- ### C7: no qualifying dishes is success -/

/-- C7: when no scored dish passes the qualification filter, the run
delivers zero dish ids (an empty ranked list) and no error event — success,
not failure.  (When nothing at all was scored, the code skips the terminal
event entirely; in both cases the caller receives zero ids and no error
event.) -/
theorem c7_no_qualifying_is_success (menu : List MenuItem) (hotelId reviewCount limit : ℕ)
    (responses : List String)
    (h : ∀ d ∈ (pipelineFromResponses menu hotelId reviewCount responses limit).scored,
      ¬ (0 < d.sentiment_score ∧ d.negative_mentions < d.positive_mentions)) :
    emittedIds (pipelineFromResponses menu hotelId reviewCount responses limit).events = [] ∧
    ∀ e ∈ (pipelineFromResponses menu hotelId reviewCount responses limit).events,
      isErrorEvent e = false := by
  have hfilter :
      (pipelineFromResponses menu hotelId reviewCount responses limit).scored.filter
        qualifiesDish = [] := by
    rw [List.filter_eq_nil_iff]
    intro d hd
    have hnq := h d hd
    simp only [qualifiesDish, Bool.and_eq_true, decide_eq_true_eq]
    intro hq
    exact hnq ⟨hq.1, hq.2⟩
  have hranked :
      rankedDishes (pipelineFromResponses menu hotelId reviewCount responses limit).scored
        limit = [] := by
    rw [rankedDishes, hfilter]
    simp
  rw [pipelineFromResponses_events]
  by_cases hsc : (pipelineFromResponses menu hotelId reviewCount responses limit).scored = []
  · simp [hsc, emittedIds]
  · simp [hsc, emittedIds, rankedIds, hranked, isErrorEvent]

/-- Witness for C7: a concrete run in which no dish was matched at all (the
only response is unparseable, so nothing is scored and the filter condition
holds vacuously) emits zero ids and no error event. -/
theorem c7_no_qualifying_is_success_witness :
    emittedIds (pipelineFromResponses [⟨1, "idli", "b", 2⟩] 1 4
        ["the service returned prose"] 20).events = [] ∧
    ∀ e ∈ (pipelineFromResponses [⟨1, "idli", "b", 2⟩] 1 4
        ["the service returned prose"] 20).events, isErrorEvent e = false :=
  c7_no_qualifying_is_success [⟨1, "idli", "b", 2⟩] 1 4 20
    ["the service returned prose"] (by decide)

/- ### C9: all-or-nothing persistence -/

theorem lookupRec_upsertRec (r : AnalyticsRecord) :
    ∀ (store : AnalyticsStore) (k : ℕ),
      lookupRec (upsertRec store r) k =
        if k = r.menu_item_id then some r else lookupRec store k
  | [], k => by
    simp only [upsertRec, lookupRec]
    by_cases h : r.menu_item_id = k
    · simp [h]
    · simp [h, Ne.symm h]
  | (i, x) :: t, k => by
    by_cases hi : i = r.menu_item_id
    · subst hi
      simp only [upsertRec, if_pos rfl, lookupRec]
      by_cases hk : r.menu_item_id = k
      · simp [hk]
      · simp [hk, Ne.symm hk]
    · simp only [upsertRec, if_neg hi, lookupRec]
      by_cases hik : i = k
      · have hknr : ¬ k = r.menu_item_id := fun e => hi (hik.trans e)
        simp [hik, hknr]
      · simp [hik, lookupRec_upsertRec r t k]

/-- C9: the run hands the persister exactly one `AnalyticsRecord` per scored
dish, and the persister executes all of them as one transaction: on failure
the run reports a persistence-failure error event and the stored analytics
state is exactly unchanged (no partial subset written); on success the store
is exactly the fold of the full-replace upserts, and each upsert overwrites
every field at its `menu_item_id` key and touches no other key.  The
commit/rollback semantics of `engine.begin()` belong to the storage
collaborator and are modelled from the spec. -/
theorem c9_persistence_all_or_nothing (store : AnalyticsStore)
    (scored : List ScoredDish) (hotelId reviewCount : ℕ) (failure : Bool) :
    ((runPersist store (scored.map (toRecord hotelId reviewCount)) failure).2 =
        [Event.error "persistence failure"] ↔ failure = true) ∧
    (failure = true →
      (runPersist store (scored.map (toRecord hotelId reviewCount)) failure).1 = store) ∧
    (failure = false →
      (runPersist store (scored.map (toRecord hotelId reviewCount)) failure).1 =
        execUpserts store (scored.map (toRecord hotelId reviewCount))) ∧
    (∀ (st : AnalyticsStore) (r : AnalyticsRecord) (k : ℕ),
      lookupRec (upsertRec st r) k = if k = r.menu_item_id then some r else lookupRec st k) ∧
    (scored.map (toRecord hotelId reviewCount)).length = scored.length := by
  refine ⟨?_, ?_, ?_, fun st r k => lookupRec_upsertRec r st k, by simp⟩
  · cases failure <;> simp [runPersist]
  · intro hf
    subst hf
    simp [runPersist]
  · intro hf
    subst hf
    simp [runPersist]

/-- Witness for C9: a failing transaction leaves a concrete store unchanged. -/
theorem c9_persistence_all_or_nothing_witness :
    (runPersist [] ([scoreDish (emptyAgg ⟨1, "a", "c", 0⟩)].map (toRecord 1 4)) true).1 =
      [] :=
  (c9_persistence_all_or_nothing [] [scoreDish (emptyAgg ⟨1, "a", "c", 0⟩)] 1 4 true).2.1 rfl
